import Mathlib

/-!
Verification of the commit-message cleaning core (`MessageProcessor` in
`src/processing/message_processor.py`).

The Python code is a pipeline of `re.sub` / `re.match` / `re.search` calls over
ordinary strings.  We embed it shallowly: strings are `List Char` (wrapped in
`String` at the API boundary), every regular expression of the source is
translated into a small `Regex` syntax tree, and a backtracking matcher
`matchList` enumerates the possible remainders of a match in exactly the
preference order of Python's backtracking engine (ordered alternation, greedy
and lazy quantifiers over character classes).  All quantified subexpressions in
the source are quantifications of single-character classes, so the matcher is
structurally recursive.

Python-specific string behaviour that the code relies on is modelled
explicitly: `str.split()` (whitespace words), `str.split(sep)` (raising
`ValueError` on an empty separator, hence `Option`), `str.strip()`,
`str.lstrip(chars)`, `str.isascii()`, `str.startswith`, and the
`string.punctuation` table used by `str.translate`.  `\w` and `\d` are modelled
over their ASCII fragment; the driver discards non-ASCII messages before any
removal runs.
-/

set_option maxRecDepth 16384

namespace MessageProcessor

/-- Python `str.isspace` characters in the ASCII range (the set used by
`str.split()`, `str.strip()` and the regex class `\s` on ASCII input). -/
def pyIsSpace (c : Char) : Bool :=
  c == ' ' || c == '\t' || c == '\n' || c == '\r' || c == '\x0b' || c == '\x0c' ||
    (0x1c ≤ c.val && c.val ≤ 0x1f)

/-- Python regex `\d` (ASCII fragment). -/
def isDigitC (c : Char) : Bool := c.isDigit

/-- Python regex `\w` (ASCII fragment: letters, digits, underscore). -/
def isWordC (c : Char) : Bool := c.isAlphanum || c == '_'

/-- Python `str.strip()` : drop whitespace from both ends. -/
def pyStrip (s : List Char) : List Char :=
  ((s.dropWhile pyIsSpace).reverse.dropWhile pyIsSpace).reverse

/-- Python `str.isascii()`. -/
def pyIsAscii (s : List Char) : Bool := s.all (fun c => decide (c.val < 128))

/-- Python `str.split()` : split on runs of whitespace, discarding empty
words.  `acc` is the reversed word currently being read. -/
def pySplitWsAux (acc : List Char) : List Char → List (List Char)
  | [] => if acc.isEmpty then [] else [acc.reverse]
  | c :: rest =>
    if pyIsSpace c then
      if acc.isEmpty then pySplitWsAux [] rest
      else acc.reverse :: pySplitWsAux [] rest
    else pySplitWsAux (c :: acc) rest

/-- Python `str.split()`. -/
def pySplitWs (s : List Char) : List (List Char) := pySplitWsAux [] s

/-- Leftmost occurrence of `sep` in `s`: the part before it and the part after it. -/
def findSplit (sep : List Char) : List Char → Option (List Char × List Char)
  | [] => none
  | c :: rest =>
    if sep.isPrefixOf (c :: rest) then some ([], (c :: rest).drop sep.length)
    else
      match findSplit sep rest with
      | some (pre, post) => some (c :: pre, post)
      | none => none

/-- Python `str.split(sep)` for a nonempty separator: split at every
non-overlapping occurrence of `sep`, keeping empty parts.  The fuel only
bounds the number of splits; since every split consumes at least the nonempty
separator, `s.length` steps always suffice. -/
def splitOnFuel (sep : List Char) : Nat → List Char → List (List Char)
  | 0, s => [s]
  | fuel + 1, s =>
    match findSplit sep s with
    | none => [s]
    | some (pre, post) => pre :: splitOnFuel sep fuel post

/-- Python `str.split(sep)` for a nonempty separator. -/
def splitOnNE (sep : List Char) (s : List Char) : List (List Char) :=
  splitOnFuel sep s.length s

/-- Python `str.split(sep)` : raises `ValueError` (here `none`) on an empty
separator. -/
def pySplit (sep : List Char) (s : List Char) : Option (List (List Char)) :=
  if sep.isEmpty then none else some (splitOnNE sep s)

/-- Python `str.startswith(p)`. -/
def pyStartsWith (s p : List Char) : Bool := p.isPrefixOf s

/-- Python `str.lstrip(chars)` : drop the leading run of characters from the set. -/
def pyLstrip (chars : List Char) (s : List Char) : List Char :=
  s.dropWhile (fun c => chars.contains c)

/-- Python `sep.join(parts)`. -/
def joinSep (sep : List Char) (parts : List (List Char)) : List Char :=
  List.intercalate sep parts

/-- `string.punctuation` from the Python standard library (32 ASCII characters). -/
def punctChars : List Char :=
  "!\"#$%&".data ++ [Char.ofNat 39] ++ "()*+,-./:;<=>?@[\\]^_".data ++
    [Char.ofNat 96] ++ [Char.ofNat 123] ++ "|".data ++ [Char.ofNat 125] ++ "~".data

/-- Membership in `string.punctuation`. -/
def isPunctC (c : Char) : Bool := punctChars.contains c

/-- `str.translate` with the table mapping every punctuation character `c` to
`" c "` (the normalization step of `_filter_trivial_or_bot`). -/
def padPunct (s : List Char) : List Char :=
  s.flatMap (fun c => if isPunctC c then [' ', c, ' '] else [c])

/-- `re.sub(" +", " ", s)` : collapse runs of space characters.  The flag
records whether the previous character was a space. -/
def collapseSpAux (prevSp : Bool) : List Char → List Char
  | [] => []
  | c :: rest =>
    if c == ' ' then
      if prevSp then collapseSpAux true rest else ' ' :: collapseSpAux true rest
    else c :: collapseSpAux false rest

/-- `re.sub(" +", " ", s)`. -/
def collapseSp (s : List Char) : List Char := collapseSpAux false s

/-!  ### The regex engine

`Regex` covers exactly the constructs that occur in the source's patterns:
single characters and character classes, concatenation, ordered alternation,
greedy and lazy star over a character class (every `*`, `+`, `{7,}` in the
source quantifies a single-character class), zero-width lookahead `(?=...)`,
and the `$` anchor (end of string, or just before one trailing newline, as in
Python without `re.MULTILINE`).  `^` anchoring and the leading `(\s|^)` /
`(^|\s)` groups are handled by the substitution drivers, which know the
absolute position.

`matchList r s` returns the list of possible remainders of `s` after a match
of `r` at the head of `s`, in exactly the order in which Python's backtracking
engine would produce them; the head of the list is the remainder Python picks. -/

inductive Regex where
  | eps
  | chr (p : Char → Bool)
  | cat (a b : Regex)
  | alt (a b : Regex)
  | starG (p : Char → Bool)
  | starL (p : Char → Bool)
  | look (r : Regex)
  | endA
deriving Inhabited

/-- All remainders of a match of `r` at the head of `s`, in Python's
backtracking preference order. -/
def matchList : Regex → List Char → List (List Char)
  | .eps, s => [s]
  | .chr _, [] => []
  | .chr p, c :: rest => if p c then [rest] else []
  | .cat a b, s => (matchList a s).flatMap (matchList b)
  | .alt a b, s => matchList a s ++ matchList b s
  | .starG p, s =>
      (List.range ((s.takeWhile p).length + 1)).reverse.map (fun k => s.drop k)
  | .starL p, s =>
      (List.range ((s.takeWhile p).length + 1)).map (fun k => s.drop k)
  | .look r, s => if (matchList r s).isEmpty then [] else [s]
  | .endA, s => if s = [] || s = ['\n'] then [s] else []

/-- Sequence a list of regexes. -/
def seqR : List Regex → Regex
  | [] => .eps
  | r :: rs => .cat r (seqR rs)

/-- Ordered alternation of a list of regexes (empty list never matches). -/
def altR : List Regex → Regex
  | [] => .chr (fun _ => false)
  | [r] => r
  | r :: rs => .alt r (altR rs)

/-- Greedy `r?`. -/
def optR (r : Regex) : Regex := .alt r .eps

/-- A case-sensitive literal character. -/
def chC (c : Char) : Regex := .chr (fun d => d == c)

/-- A case-insensitive literal character (`c` given in lowercase). -/
def chI (c : Char) : Regex := .chr (fun d => d.toLower == c)

/-- Case-sensitive literal string. -/
def litC (s : String) : Regex := seqR (s.data.map chC)

/-- Case-insensitive literal string (`s` given in lowercase). -/
def litI (s : String) : Regex := seqR (s.data.map chI)

/-- `re.match(r, s)` succeeds (r is expected to carry its own `$` if needed). -/
def reMatchB (r : Regex) (s : List Char) : Bool := !(matchList r s).isEmpty

/-- `re.search(r, s)` succeeds: a match starts at some position of `s`. -/
def reSearchB (r : Regex) (s : List Char) : Bool :=
  s.tails.any (fun t => reMatchB r t)

/-! ### Character classes of the source's patterns -/

/-- The apostrophe character. -/
def apos : Char := Char.ofNat 39

/-- Class `[:\-\s]` (leading punctuation run of `_remove_pattern_generic`). -/
def leadCls (c : Char) : Bool := c == ':' || c == '-' || pyIsSpace c

/-- Class `[:,.!?;~]` (trailing punctuation run of `_remove_pattern_generic`). -/
def punctTail (c : Char) : Bool :=
  c == ':' || c == ',' || c == '.' || c == '!' || c == '?' || c == ';' || c == '~'

/-- Regex `.` : any character except newline. -/
def dotCls (c : Char) : Bool := c != '\n'

/-- Class `[\dA-Fa-f-]` of the commit-hash pattern. -/
def hexCls (c : Char) : Bool :=
  isDigitC c || ('A' ≤ c && c ≤ 'F') || ('a' ≤ c && c ≤ 'f') || c == '-'

/-- Class `[\[\({<]` (optional opening bracket). -/
def wrapOpenC (c : Char) : Bool :=
  c == '[' || c == '(' || c == Char.ofNat 123 || c == '<'

/-- Class `[\]\)}>]` (optional closing bracket). -/
def wrapCloseC (c : Char) : Bool :=
  c == ']' || c == ')' || c == Char.ofNat 125 || c == '>'

/-- Class `[\w.\-+]` (email local part). -/
def emailLocCls (c : Char) : Bool := isWordC c || c == '.' || c == '-' || c == '+'

/-- Class `[\w.\-]` (email domain part). -/
def emailDomCls (c : Char) : Bool := isWordC c || c == '.' || c == '-'

/-- Class `[-a-zA-Z0-9@:%._+~#?=/&]` (URL body). -/
def urlCls (c : Char) : Bool :=
  c == '-' || c.isAlphanum || c == '@' || c == ':' || c == '%' || c == '.' ||
    c == '_' || c == '+' || c == '~' || c == '#' || c == '?' || c == '=' ||
    c == '/' || c == '&'

/-- Regex `\S`. -/
def notSpaceC (c : Char) : Bool := !pyIsSpace c

/-- Class `[ \d.]` of the version-number patterns. -/
def verCls (c : Char) : Bool := c == ' ' || isDigitC c || c == '.'

/-- Class `[A-Z]` of the Jira-style issue pattern. -/
def isUpperC (c : Char) : Bool := 'A' ≤ c && c ≤ 'Z'

/-! ### The removal patterns -/

/-- `[\[\({<]?`. -/
def wrapOpenR : Regex := optR (.chr wrapOpenC)

/-- `[\]\)}>]?`. -/
def wrapCloseR : Regex := optR (.chr wrapCloseC)

/-- Email pattern `[\[\({<]?\w[\w.\-+]*?@[\w.\-]+?\.[\w.\-]+?[\]\)}>]?`
(from `_remove_emails`). -/
def emailRe : Regex :=
  seqR [wrapOpenR, .chr isWordC, .starL emailLocCls, chC '@',
        .chr emailDomCls, .starL emailDomCls, chC '.',
        .chr emailDomCls, .starL emailDomCls, wrapCloseR]

/-- URL pattern `https?://[-a-zA-Z0-9@:%._+~#?=/&]+?` (from `_remove_urls`). -/
def urlRe : Regex :=
  seqR [litC "http", optR (chC 's'), litC "://", .chr urlCls, .starL urlCls]

/-- Mention pattern `@\S+?` (from `_remove_at_pattern`). -/
def atRe : Regex := seqR [chC '@', .chr notSpaceC, .starL notSpaceC]

/-- `[\dA-Fa-f-]{7,}` : at least seven hex-or-dash characters (greedy). -/
def hexRun : Regex := seqR (List.replicate 7 (.chr hexCls) ++ [.starG hexCls])

/-- Commit-hash pattern `PFX[\dA-Fa-f-]{7,}` for a prefix in
`["", "ref:", "I"]` (from `_remove_sha`). -/
def shaRe (pfx : String) : Regex := .cat (litC pfx) hexRun

/-- Date shape `\d\d\d\d-\d\d-\d\d`. -/
def date1Re : Regex :=
  seqR (List.replicate 4 (.chr isDigitC) ++ [chC '-'] ++
        List.replicate 2 (.chr isDigitC) ++ [chC '-'] ++
        List.replicate 2 (.chr isDigitC))

/-- Date shape `\d\d-\d\d-\d\d\d\d`. -/
def date2Re : Regex :=
  seqR (List.replicate 2 (.chr isDigitC) ++ [chC '-'] ++
        List.replicate 2 (.chr isDigitC) ++ [chC '-'] ++
        List.replicate 4 (.chr isDigitC))

/-- `\d+` (greedy). -/
def digitsPlus : Regex := .cat (.chr isDigitC) (.starG isDigitC)

/-- Issue pattern `#\d+` (core, before bracket wrapping). -/
def issueCore1 : Regex := .cat (chC '#') digitsPlus

/-- Issue pattern `GH-\d+` (core). -/
def issueCore2 : Regex := .cat (litC "GH-") digitsPlus

/-- Issue pattern `gh-\d+` (core). -/
def issueCore3 : Regex := .cat (litC "gh-") digitsPlus

/-- Jira-style issue pattern `[A-Z]\w+-\d+` (core). -/
def issueCore4 : Regex :=
  seqR [.chr isUpperC, .chr isWordC, .starG isWordC, chC '-', digitsPlus]

/-- Bracket-wrapped issue pattern `[\[\({<]?CORE[\]\)}>]?`
(as built in `_remove_issue_ref`). -/
def wrapIssue (core : Regex) : Regex := seqR [wrapOpenR, core, wrapCloseR]

/-! ### The generic substitution drivers

`_remove_pattern_generic(x, pattern, replace_pattern)` performs
  * delete mode (`replace_pattern = ""`):
      `re.sub(r"^[:\-\s]*" + pattern + r"[:,.!?;~]*(\s|$)", "", x)` followed by
      `re.sub(r"\s[:\-\s]*" + pattern + r"[:,.!?;~]*(?=\s|$)", "", x)`;
  * placeholder mode:
      `re.sub(r"((\s|^)[:\-\s]*)" + pattern + r"([:,.!?;~]*(\s|$))",
              r"\1" + replace_pattern + r"\3", x)`.
The `^` anchor and the `(\s|^)` leading group are resolved positionally by the
drivers below; all the source's `pattern` arguments consume at least one
character, so each replacement strictly shortens the unscanned input (the
`if h : ...` guards make this a definitional termination argument). -/

/-- `[:\-\s]*`. -/
def leadR : Regex := .starG leadCls

/-- `[:,.!?;~]*(\s|$)` (consuming, as in the anchored delete pass and the
placeholder pass). -/
def postDelR : Regex := seqR [.starG punctTail, .alt (.chr pyIsSpace) .endA]

/-- `[:,.!?;~]*(?=\s|$)` (trailing lookahead of the unanchored delete pass). -/
def postLookR : Regex := seqR [.starG punctTail, .look (.alt (.chr pyIsSpace) .endA)]

/-- The anchored delete pass `re.sub(r"^[:\-\s]*" + pat + r"[:,.!?;~]*(\s|$)", "", x)`:
without `re.MULTILINE` the `^` pattern can match only at position 0, so at most
one replacement happens. -/
def deleteSub1 (core : Regex) (s : List Char) : List Char :=
  match (matchList (seqR [leadR, core, postDelR]) s).head? with
  | some rem => rem
  | none => s

/-- The unanchored delete pass
`re.sub(r"\s[:\-\s]*" + pat + r"[:,.!?;~]*(?=\s|$)", "", x)` : scan left to
right, delete each leftmost match, continue at the match end.  Each step
consumes at least one character of the unscanned input (the `\s` of the
pattern, or the character skipped over), so `s.length` fuel always suffices. -/
def deleteSub2Fuel (core : Regex) : Nat → List Char → List Char
  | _, [] => []
  | 0, s => s
  | fuel + 1, c :: rest =>
    if pyIsSpace c then
      match (matchList (seqR [leadR, core, postLookR]) rest).head? with
      | some rem => deleteSub2Fuel core fuel rem
      | none => c :: deleteSub2Fuel core fuel rest
    else c :: deleteSub2Fuel core fuel rest

/-- The unanchored delete pass of `_remove_pattern_generic`. -/
def deleteSub2 (core : Regex) (s : List Char) : List Char :=
  deleteSub2Fuel core s.length s

/-- First decomposition (in backtracking preference order) of a match of
`r1 r2 r3` at the head of `s`: returns the text consumed by `r1`, the text
consumed by `r3`, and the remainder. -/
def firstSplit3 (r1 r2 r3 : Regex) (s : List Char) :
    Option (List Char × List Char × List Char) :=
  (matchList r1 s).findSome? fun rem1 =>
    (matchList r2 rem1).findSome? fun rem2 =>
      (matchList r3 rem2).findSome? fun rem3 =>
        some (s.take (s.length - rem1.length), rem2.take (rem2.length - rem3.length), rem3)

/-- One attempted placeholder match at the current position: group 2 `(\s|^)`
tries the `\s` branch first, then (only at position 0) the `^` branch.  On
success returns the replacement text `\1 TOKEN \3` and the remainder. -/
def phStep (core : Regex) (tok : List Char) (s : List Char) (atStart : Bool) :
    Option (List Char × List Char) :=
  (match s with
   | c :: rest =>
     if pyIsSpace c then
       match firstSplit3 leadR core postDelR rest with
       | some (t1, t3, rem) => some ((c :: t1) ++ tok ++ t3, rem)
       | none => none
     else none
   | [] => none)
  <|>
  (if atStart then
     match firstSplit3 leadR core postDelR s with
     | some (t1, t3, rem) => some (t1 ++ tok ++ t3, rem)
     | none => none
   else none)

/-- The placeholder pass
`re.sub(r"((\s|^)[:\-\s]*)" + pat + r"([:,.!?;~]*(\s|$))", r"\1" + tok + r"\3", x)`,
scanning with fuel (every match consumes at least one character since every
`pattern` of the source does). -/
def placeholderSubFuel (core : Regex) (tok : List Char) :
    Nat → List Char → Bool → List Char
  | _, [], _ => []
  | 0, s, _ => s
  | fuel + 1, c :: rest, atStart =>
    match phStep core tok (c :: rest) atStart with
    | some (out, rem) => out ++ placeholderSubFuel core tok fuel rem false
    | none => c :: placeholderSubFuel core tok fuel rest false

/-- The placeholder pass of `_remove_pattern_generic`. -/
def placeholderSub (core : Regex) (tok : List Char) (s : List Char) (atStart : Bool) :
    List Char :=
  placeholderSubFuel core tok s.length s atStart

/-- `MessageProcessor._remove_pattern_generic` (the pattern argument is given as
an already-translated `Regex`, which by construction carries no capturing
groups, discharging the source's `assert not re.compile(pattern).groups`). -/
def remove_pattern_generic (x : List Char) (core : Regex) (repl : List Char) :
    List Char :=
  if repl.isEmpty then deleteSub2 core (deleteSub1 core x)
  else placeholderSub core repl x true

/-! ### The per-category removers -/

/-- `MessageProcessor.get_special_tokens`. -/
def get_special_tokens : List (String × String) :=
  [("email", "[EMAIL]"), ("url", "[URL]"), ("at_pattern", "[NICKNAME]"),
   ("sha", "[COMMIT_ID]"), ("issue_ref", "[ISSUE_ID]")]

/-- Lookup in the special-token mapping. -/
def specialToken (k : String) : String :=
  ((get_special_tokens.lookup k).getD "")

/-- `MessageProcessor._remove_emails`. -/
def remove_emails (message : String) (replace_pattern : String := "") : String :=
  ⟨remove_pattern_generic message.data emailRe replace_pattern.data⟩

/-- `MessageProcessor._remove_urls`. -/
def remove_urls (message : String) (replace_pattern : String := "") : String :=
  ⟨remove_pattern_generic message.data urlRe replace_pattern.data⟩

/-- `MessageProcessor._remove_at_pattern`. -/
def remove_at_pattern (message : String) (replace_pattern : String := "") : String :=
  ⟨remove_pattern_generic message.data atRe replace_pattern.data⟩

/-- `MessageProcessor._remove_sha` : hash removal is suppressed entirely when
the line contains a date-shaped substring; otherwise the generic removal runs
once per prefix `"", "ref:", "I"`. -/
def remove_sha (message : String) (replace_pattern : String := "") : String :=
  if reSearchB date1Re message.data || reSearchB date2Re message.data then message
  else
    ⟨[("" : String), "ref:", "I"].foldl
      (fun acc pfx => remove_pattern_generic acc (shaRe pfx) replace_pattern.data)
      message.data⟩

/-- The character set of `x.lstrip("-–:")` in `_remove_issue_ref`. -/
def dashColonChars : List Char := ['-', '–', ':']

/-- `MessageProcessor._remove_issue_ref` : for each of the four bracket-wrapped
patterns run the generic removal, and in delete mode additionally
`lstrip("-–:")` the result. -/
def remove_issue_ref (message : String) (replace_pattern : String := "") : String :=
  ⟨[wrapIssue issueCore1, wrapIssue issueCore2, wrapIssue issueCore3,
    wrapIssue issueCore4].foldl
    (fun acc pat =>
      let y := remove_pattern_generic acc pat replace_pattern.data
      if replace_pattern.isEmpty then pyLstrip dashColonChars y else y)
    message.data⟩

/-! ### Signature removal -/

/-- `(-| |)` : a dash, a space, or nothing. -/
def sepDash : Regex := altR [chC '-', chC ' ', .eps]

/-- First case-insensitive signature alternation of `_remove_signatures`. -/
def sigKey1 : Regex :=
  altR [seqR [litI "signed", sepDash, litI "off", sepDash, litI "by"],
        seqR [litI "co", optR sepDash, litI "authored", sepDash, litI "by"],
        seqR [litI "also", sepDash, litI "by"],
        seqR [litI "reviewe", optR (chI 'd'), sepDash, altR [litI "by", litI "on"]],
        seqR [litI "former", sepDash, litI "commit", sepDash, litI "id"],
        litI "git-svn-id", litI "auto-submit", litI "commit-queue"]

/-- `(Created by MOE|MOE_MIGRATED_REVID)`. -/
def sigKey2 : Regex := altR [litI "created by moe", litI "moe_migrated_revid"]

/-- `(fbshipit-source-id|Differential Revision|Pulled(-| )by)`. -/
def sigKey3 : Regex :=
  altR [litI "fbshipit-source-id", litI "differential revision",
        seqR [litI "pulled", altR [chC '-', chC ' '], litI "by"]]

/-- `(Change-Id|PiperOrigin-RevId|BAZEL_VERSION_REV_ID)`. -/
def sigKey4 : Regex :=
  altR [litI "change-id", litI "piperorigin-revid", litI "bazel_version_rev_id"]

/-- `(Kubernetes-commit)`. -/
def sigKey5 : Regex := litI "kubernetes-commit"

/-- `(Revision: r[\d]*|Sandbox task ID|Glycine run ID)`. -/
def sigKey6 : Regex :=
  altR [seqR [litI "revision: r", .starG isDigitC],
        litI "sandbox task id", litI "glycine run id"]

/-- `(\(Merged from|\(cherry(-| |)picked from|tracked(-| |)on)`. -/
def sigKey7 : Regex :=
  altR [litI "(merged from",
        seqR [litI "(cherry", sepDash, litI "picked from"],
        seqR [litI "tracked", sepDash, litI "on"]]

/-- Case-sensitive line-start keys `(Bug:|BUG=|FIXES=|R=)`. -/
def csKeys : Regex := altR [litC "Bug:", litC "BUG=", litC "FIXES=", litC "R="]

/-- `KEY.*?$`. -/
def sigFull (key : Regex) : Regex := .cat key (seqR [.starL dotCls, .endA])

/-- One attempted match of `(^|\s)KEY.*?$` at the current position: the `^`
branch is tried first (pattern order), then the `\s` branch. -/
def sigStep (key : Regex) (s : List Char) (atStart : Bool) : Option (List Char) :=
  (if atStart then (matchList (sigFull key) s).head? else none)
  <|>
  (match s with
   | c :: rest => if pyIsSpace c then (matchList (sigFull key) rest).head? else none
   | [] => none)

/-- `re.sub(r"(^|\s)" + key + r".*?$", "", s, flags=re.IGNORECASE)`, scanning
with fuel (every key consumes at least one character). -/
def sigSubFuel (key : Regex) : Nat → List Char → Bool → List Char
  | _, [], _ => []
  | 0, s, _ => s
  | fuel + 1, c :: rest, atStart =>
    match sigStep key (c :: rest) atStart with
    | some rem => sigSubFuel key fuel rem false
    | none => c :: sigSubFuel key fuel rest false

/-- One case-insensitive signature substitution. -/
def sigSubLoop (key : Regex) (s : List Char) (atStart : Bool) : List Char :=
  sigSubFuel key s.length s atStart

/-- `re.sub(r"^(Bug:|BUG=|FIXES=|R=).*?$", "", s)` (anchored: at most one match). -/
def csSigSub (s : List Char) : List Char :=
  match (matchList (sigFull csKeys) s).head? with
  | some rem => rem
  | none => s

/-- `MessageProcessor._remove_signatures` : seven case-insensitive substitutions
followed by the case-sensitive line-start one. -/
def remove_signatures (message : String) : String :=
  ⟨csSigSub ([sigKey1, sigKey2, sigKey3, sigKey4, sigKey5, sigKey6, sigKey7].foldl
    (fun acc k => sigSubLoop k acc true) message.data)⟩

/-- `MessageProcessor._remove_all_patterns` : the per-line removal chain. -/
def remove_all_patterns (line : String) (replace_patterns : Bool) : String :=
  if !replace_patterns then
    let l1 := remove_emails line
    let l2 := remove_urls l1
    let l3 := remove_issue_ref l2
    let l4 := remove_signatures l3
    let l5 := remove_at_pattern l4
    let l6 := remove_sha l5
    ⟨pyStrip l6.data⟩
  else
    let l1 := remove_emails line (specialToken "email")
    let l2 := remove_urls l1 (specialToken "url")
    let l3 := remove_issue_ref l2 (specialToken "issue_ref")
    let l4 := remove_signatures l3
    let l5 := remove_at_pattern l4 (specialToken "at_pattern")
    let l6 := remove_sha l5 (specialToken "sha")
    ⟨pyStrip l6.data⟩

/-! ### The message filter -/

/-- Normalization step of `_filter_trivial_or_bot` : strip, pad punctuation
with spaces, collapse space runs, strip again. -/
def normalizeTriv (m : List Char) : List Char :=
  pyStrip (collapseSp (padPunct (pyStrip m)))

/-- `^ignore update \' .* \.$`. -/
def trivPat1 : Regex :=
  seqR [litI "ignore update ", chC apos, chC ' ', .starG dotCls,
        chC ' ', chC '.', .endA]

/-- `^update(d)? (changelog|gitignore|readme( . md| file)?)( \.)?$`
(the dot of `. md` is an unescaped `.`, i.e. any character). -/
def trivPat2 : Regex :=
  seqR [litI "update", optR (chI 'd'), chC ' ',
        altR [litI "changelog", litI "gitignore",
              seqR [litI "readme",
                    optR (altR [seqR [chC ' ', .chr dotCls, chC ' ', litI "md"],
                                litI " file"])]],
        optR (litI " ."), .endA]

/-- `^prepare version (v)?[ \d.]+$`. -/
def trivPat3 : Regex :=
  seqR [litI "prepare version ", optR (chI 'v'), .chr verCls, .starG verCls, .endA]

/-- `^bump (up )?version( number| code)?( to (v)?[ \d.]+( - snapshot)?)?( \.)?$`. -/
def trivPat4 : Regex :=
  seqR [litI "bump ", optR (litI "up "), litI "version",
        optR (altR [litI " number", litI " code"]),
        optR (seqR [litI " to ", optR (chI 'v'), .chr verCls, .starG verCls,
                    optR (litI " - snapshot")]),
        optR (litI " ."), .endA]

/-- `^modify (dockerfile|makefile)( \.)?$`. -/
def trivPat5 : Regex :=
  seqR [litI "modify ", altR [litI "dockerfile", litI "makefile"],
        optR (litI " ."), .endA]

/-- `^update submodule(s)?( \.)?$`. -/
def trivPat6 : Regex :=
  seqR [litI "update submodule", optR (chI 's'), optR (litI " ."), .endA]

/-- `^updated? \w+( \. \w+)?$`. -/
def trivGeneric : Regex :=
  seqR [litI "update", optR (chI 'd'), chC ' ', .chr isWordC, .starG isWordC,
        optR (seqR [chC ' ', chC '.', chC ' ', .chr isWordC, .starG isWordC]),
        .endA]

/-- `MessageProcessor._filter_trivial_or_bot`. -/
def filter_trivial_or_bot (message : String) : Bool :=
  let n := normalizeTriv message.data
  ([trivPat1, trivPat2, trivPat3, trivPat4, trivPat5, trivPat6].any
    (fun r => reMatchB r n)) || reMatchB trivGeneric n

/-- `MessageProcessor._filter_merge`. -/
def filter_merge (message : String) : Bool := pyStartsWith message.data "Merge".data

/-- `MessageProcessor._filter_revert`. -/
def filter_revert (message : String) : Bool := pyStartsWith message.data "Revert".data

/-- `MessageProcessor._filter_squash` : `none` models the `ValueError` that
`str.split` raises on an empty separator. -/
def filter_squash (message : String) (line_sep : String) : Option Bool :=
  match pySplit line_sep.data message.data with
  | none => none
  | some message_lines =>
    if message_lines.length = 1 then some false
    else if message_lines.all (fun l => pyStartsWith (pyStrip l) ['*']) then some true
    else if (message_lines.drop 1).all (fun l => pyStartsWith (pyStrip l) ['*']) then
      some true
    else some false

/-- The input of `_filter` : a Python value that is either a string or
anything else (`not isinstance(message, str)`). -/
inductive MsgInput where
  | str (s : String)
  | nonStr
deriving DecidableEq

/-- `MessageProcessor._filter` : the ordered discard conditions; `none` models
an uncaught exception (only possible for an empty line separator). -/
def filter : MsgInput → String → Option Bool
  | .nonStr, _ => some true
  | .str message, line_sep =>
    if !pyIsAscii message.data then some true
    else if (pySplitWs message.data).length = 1 then some true
    else if filter_trivial_or_bot message then some true
    else if filter_merge message then some true
    else if filter_revert message then some true
    else filter_squash message line_sep

/-- `MessageProcessor._process` : the per-message driver. -/
def process (message : String) (replace_patterns : Bool) (line_sep : String) :
    Option String :=
  match filter (.str message) "\n" with
  | none => none
  | some true => some ""
  | some false =>
    let message_lines := (splitOnNE ['\n'] message.data).map
      (fun line => (remove_all_patterns ⟨line⟩ replace_patterns).data)
    let joined := joinSep line_sep.data (message_lines.filter (fun l => !l.isEmpty))
    match filter (.str ⟨joined⟩) line_sep with
    | none => none
    | some true => some ""
    | some false => some ⟨joined⟩

/-! ### Predicates used to state the claims, and the spec-worded reference
definitions for the refinement claims -/

/-- `pat` occurs as a contiguous substring of `s`. -/
def hasSubstr (pat s : List Char) : Bool := s.tails.any (fun t => pat.isPrefixOf t)

/-- Number of positions of `s` at which `pat` occurs as a substring. -/
def countSubstr (pat s : List Char) : Nat :=
  (s.tails.filter (fun t => pat.isPrefixOf t)).length

/-- The line contains a date-shaped substring (`YYYY-MM-DD` or `DD-MM-YYYY`),
exactly the condition tested first by `_remove_sha`. -/
def hasDateShape (s : String) : Bool :=
  reSearchB date1Re s.data || reSearchB date2Re s.data

/-- The line contains, at some position, an occurrence of one of the four
issue-reference core patterns `#\d+`, `GH-\d+`, `gh-\d+`, `[A-Z]\w+-\d+`. -/
def containsIssueRef (s : String) : Bool :=
  [issueCore1, issueCore2, issueCore3, issueCore4].any fun core =>
    s.data.tails.any fun t => !(matchList core t).isEmpty

/-- The message `Ignore update 'a'` (the apostrophe written via `apos`). -/
def igQuoted : String := "Ignore update " ++ ⟨[apos]⟩ ++ "a" ++ ⟨[apos]⟩

/-- Reference definition following the spec's words (section 4.2): the discard
decision — first true condition wins, in the order: not text; contains a
non-ASCII character; exactly one whitespace-delimited token; trivial-or-bot
shape; starts with `Merge`; starts with `Revert`; squash shape (more than one
line and either every line, or every line except the first, begins with `*`
after trimming).  Used as the reference side of the refinement claims. -/
def filterSpec (m : MsgInput) (lineSeparator : String) : Option Bool :=
  match m with
  | .nonStr => some true
  | .str s =>
    if s.data.any (fun c => !decide (c.val < 128)) then some true
    else if (pySplitWs s.data).length = 1 then some true
    else if filter_trivial_or_bot s then some true
    else if pyStartsWith s.data "Merge".data then some true
    else if pyStartsWith s.data "Revert".data then some true
    else
      match pySplit lineSeparator.data s.data with
      | none => none
      | some lines =>
        some (decide (1 < lines.length) &&
          (lines.all (fun l => pyStartsWith (pyStrip l) ['*']) ||
           (lines.drop 1).all (fun l => pyStartsWith (pyStrip l) ['*'])))

/-- Reference definition following the spec's words (section 4.3): the
four-step per-message sequence —
(1) filter the raw message with `"\n"` as line boundary; (2) split on `"\n"`,
clean each line, drop lines that became empty, rejoin with the caller's
separator; (3) filter the rejoined result with the caller's separator;
(4) return it.  Used as the reference side of the refinement claim C1. -/
def processSpec (message : String) (replaceMode : Bool) (lineSeparator : String) :
    Option String :=
  match filter (.str message) "\n" with
  | none => none
  | some true => some ""
  | some false =>
    let survivors := (splitOnNE ['\n'] message.data).filterMap fun line =>
      let cleaned := (remove_all_patterns ⟨line⟩ replaceMode).data
      if cleaned.isEmpty then none else some cleaned
    let rejoined := joinSep lineSeparator.data survivors
    match filter (.str ⟨rejoined⟩) lineSeparator with
    | none => none
    | some true => some ""
    | some false => some ⟨rejoined⟩

/-! ## Theorems -/

/-- C4: for every line containing a date-shaped substring (`\d\d\d\d-\d\d-\d\d`
or `\d\d-\d\d-\d\d\d\d`), commit-hash removal returns the line completely
unchanged, in delete mode and in placeholder mode alike (the replacement
argument is arbitrary). -/
theorem sha_removal_unchanged_on_date_lines (x : String) (rep : String)
    (h : hasDateShape x = true) : remove_sha x rep = x := by
  unfold hasDateShape at h
  unfold remove_sha
  simp [h]

/-- Witness for C4: a concrete line holding both a date and a hex-looking token
of length at least 7 is untouched by hash removal in both modes. -/
theorem sha_removal_unchanged_on_date_lines_witness :
    hasDateShape "deadbeef1 2023-04-01" = true ∧
    reSearchB hexRun "deadbeef1 2023-04-01".data = true ∧
    remove_sha "deadbeef1 2023-04-01" "" = "deadbeef1 2023-04-01" ∧
    remove_sha "deadbeef1 2023-04-01" "[COMMIT_ID]" = "deadbeef1 2023-04-01" :=
  ⟨by decide, by decide,
   sha_removal_unchanged_on_date_lines _ _ (by decide),
   sha_removal_unchanged_on_date_lines _ _ (by decide)⟩

/-- C6 counterexample: the per-line removal is not idempotent.  On the line
`a@b.c d@e.f` the first removal pass consumes the whitespace boundary between
the two emails, leaving the second one as a residual match that only a second
application removes — in placeholder mode and in delete mode alike. -/
theorem remove_all_patterns_not_idempotent :
    remove_all_patterns "a@b.c d@e.f" true = "[EMAIL] d@e.f" ∧
    remove_all_patterns "[EMAIL] d@e.f" true = "[EMAIL] [EMAIL]" ∧
    remove_all_patterns (remove_all_patterns "a@b.c d@e.f" true) true ≠
      remove_all_patterns "a@b.c d@e.f" true ∧
    remove_all_patterns "a@b.c d@e.f" false = "d@e.f" ∧
    remove_all_patterns "d@e.f" false = "" ∧
    remove_all_patterns (remove_all_patterns "a@b.c d@e.f" false) false ≠
      remove_all_patterns "a@b.c d@e.f" false := by decide

/-- C6 amended: the per-line removal is idempotent exactly on the lines it
fixes — for a cleaned line with no residual match (one the remover leaves
unchanged) a second application in the same mode yields the same line; a
cleaned line may however retain a residual match, so idempotence does not hold
for every output of the remover. -/
theorem remove_all_patterns_idempotent_on_fixed_points (line : String)
    (mode : Bool) (h : remove_all_patterns line mode = line) :
    remove_all_patterns (remove_all_patterns line mode) mode =
      remove_all_patterns line mode := by
  rw [h]
  exact h

/-- Witness for the amended C6 at a concrete fixed point. -/
theorem remove_all_patterns_idempotent_on_fixed_points_witness :
    remove_all_patterns "fix bug" false = "fix bug" ∧
    remove_all_patterns (remove_all_patterns "fix bug" false) false =
      remove_all_patterns "fix bug" false :=
  ⟨by decide, remove_all_patterns_idempotent_on_fixed_points _ _ (by decide)⟩

/-- C7 counterexample: the trailing period is not optional in every shape of
the trivial-or-bot catalogue.  The generic `update WORD` shape accepts
`update foo` but rejects `update foo.`, and conversely the bot ignore-update
quoted form requires the period: it accepts `Ignore update 'a'.` but rejects
`Ignore update 'a'`. -/
theorem trailing_period_changes_trivial_verdict :
    filter_trivial_or_bot "update foo" = true ∧
    filter_trivial_or_bot "update foo." = false ∧
    filter_trivial_or_bot (igQuoted ++ ".") = true ∧
    filter_trivial_or_bot igQuoted = false := by decide

/-- C7 amended: the trailing period is optional in the
update-changelog/gitignore/readme, bump-version, modify-dockerfile/makefile
and update-submodules shapes, and a trailing period is absorbed by the
character class of the prepare-version shape; it is required by the bot
ignore-update quoted form and not accepted by the generic update-WORD shape. -/
theorem trailing_period_optional_shapes :
    filter_trivial_or_bot "update changelog" = true ∧
    filter_trivial_or_bot "update changelog." = true ∧
    filter_trivial_or_bot "update readme" = true ∧
    filter_trivial_or_bot "update readme." = true ∧
    filter_trivial_or_bot "bump version" = true ∧
    filter_trivial_or_bot "bump version." = true ∧
    filter_trivial_or_bot "prepare version 1.2" = true ∧
    filter_trivial_or_bot "prepare version 1.2." = true ∧
    filter_trivial_or_bot "modify makefile" = true ∧
    filter_trivial_or_bot "modify makefile." = true ∧
    filter_trivial_or_bot "update submodules" = true ∧
    filter_trivial_or_bot "update submodules." = true := by decide

/-- C3 counterexample: the universal claim fails in two ways.  `see(a@b.c)`
contains a syntactically valid email yet no `[EMAIL]` token is produced (the
substitution context demands a whitespace-or-start boundary, which is absent);
and in `a@b.c d@e.f` both emails are whitespace/start/end-delimited, yet the
output carries exactly one `[EMAIL]` token — replacing the first match
consumes the whitespace that delimited the second, which survives verbatim. -/
theorem placeholder_requires_boundary_counterexample :
    reMatchB (.cat emailRe .endA) "a@b.c".data = true ∧
    remove_all_patterns "see(a@b.c)" true = "see(a@b.c)" ∧
    hasSubstr "[EMAIL]".data ("see(a@b.c)" : String).data = false ∧
    reMatchB (.cat emailRe .endA) "d@e.f".data = true ∧
    remove_all_patterns "a@b.c d@e.f" true = "[EMAIL] d@e.f" ∧
    countSubstr "[EMAIL]".data (remove_all_patterns "a@b.c d@e.f" true).data = 1 := by
  decide

/-- C3 amended: the concrete per-category facts that survive the
counterexample — the spec's example and its analogues for the other three
categories: each input is mapped to the stated output, which holds exactly one
instance of the corresponding canonical token, at the matched position, with
the original surrounding whitespace preserved. -/
theorem placeholder_mode_examples :
    remove_all_patterns "Contact bob@example.com for help" true =
      "Contact [EMAIL] for help" ∧
    countSubstr "[EMAIL]".data ("Contact [EMAIL] for help" : String).data = 1 ∧
    remove_all_patterns "see https://example.com/x for details" true =
      "see [URL] for details" ∧
    countSubstr "[URL]".data ("see [URL] for details" : String).data = 1 ∧
    remove_all_patterns "thanks @alice for review" true =
      "thanks [NICKNAME] for review" ∧
    countSubstr "[NICKNAME]".data ("thanks [NICKNAME] for review" : String).data = 1 ∧
    remove_all_patterns "closes #123 now" true = "closes [ISSUE_ID] now" ∧
    countSubstr "[ISSUE_ID]".data ("closes [ISSUE_ID] now" : String).data = 1 := by
  decide

/-- C5 counterexample: the universal claim fails in two ways.  `ask(a@b.c)`
contains a syntactically valid email yet delete mode returns it unchanged, the
match surviving (no whitespace-or-start boundary); and in `a@b.c d@e.f` both
emails are whitespace/start/end-delimited, yet delete mode outputs `d@e.f` —
the anchored pass removing the first match consumes the delimiting whitespace,
and the second email survives as the whole output. -/
theorem delete_requires_boundary_counterexample :
    reMatchB (.cat emailRe .endA) "a@b.c".data = true ∧
    remove_all_patterns "ask(a@b.c)" false = "ask(a@b.c)" ∧
    hasSubstr "a@b.c".data (remove_all_patterns "ask(a@b.c)" false).data = true ∧
    reMatchB (.cat emailRe .endA) "d@e.f".data = true ∧
    remove_all_patterns "a@b.c d@e.f" false = "d@e.f" ∧
    hasSubstr "d@e.f".data (remove_all_patterns "a@b.c d@e.f" false).data = true := by
  decide

/-- C5 amended: the concrete per-category facts that survive the
counterexample — the spec's example and its analogues: each input is mapped to
the stated output, which contains neither the matched substring nor dangling
punctuation (no dash is left behind in `Fixes`). -/
theorem delete_mode_examples :
    remove_all_patterns "Fixes - #123" false = "Fixes" ∧
    hasSubstr "#123".data ("Fixes" : String).data = false ∧
    hasSubstr "-".data ("Fixes" : String).data = false ∧
    remove_all_patterns "Contact bob@example.com for help" false =
      "Contact for help" ∧
    hasSubstr "bob@example.com".data ("Contact for help" : String).data = false ∧
    remove_all_patterns "see https://example.com/x for details" false =
      "see for details" ∧
    hasSubstr "https://example.com/x".data ("see for details" : String).data = false ∧
    remove_all_patterns "thanks @alice for review" false = "thanks for review" ∧
    hasSubstr "@alice".data ("thanks for review" : String).data = false := by
  decide

/-! ### Helper lemmas for the refinement claims -/

/-- A string has a non-ASCII character iff it is not `isascii`. -/
theorem any_nonascii_eq_not_ascii (l : List Char) :
    (l.any fun c => !decide (c.val < 128)) = !pyIsAscii l := by
  induction l with
  | nil => rfl
  | cons c cs ih => simp [pyIsAscii, List.any_cons, List.all_cons, Bool.not_and, ih]

/-- `str.split(sep)` never yields an empty list of parts. -/
theorem splitOnFuel_ne_nil (sep : List Char) (fuel : Nat) (s : List Char) :
    splitOnFuel sep fuel s ≠ [] := by
  cases fuel with
  | zero => simp [splitOnFuel]
  | succ n =>
    simp only [splitOnFuel]
    split <;> simp

/-- The squash filter, rewritten in the spec's phrasing: more than one line and
either all lines, or all lines but the first, begin with `*` after trimming. -/
theorem filter_squash_eq_spec (s line_sep : String) :
    filter_squash s line_sep =
      match pySplit line_sep.data s.data with
      | none => none
      | some lines =>
        some (decide (1 < lines.length) &&
          (lines.all (fun l => pyStartsWith (pyStrip l) ['*']) ||
           (lines.drop 1).all (fun l => pyStartsWith (pyStrip l) ['*']))) := by
  unfold filter_squash pySplit
  by_cases hsep : line_sep.data.isEmpty
  · simp [hsep]
  · simp only [hsep, Bool.false_eq_true, if_false]
    have hne : splitOnNE line_sep.data s.data ≠ [] := splitOnFuel_ne_nil _ _ _
    have hlen : (splitOnNE line_sep.data s.data).length ≠ 0 := by
      intro hz
      exact hne (List.eq_nil_of_length_eq_zero hz)
    by_cases h1 : (splitOnNE line_sep.data s.data).length = 1
    · have : ¬ (1 < (splitOnNE line_sep.data s.data).length) := by omega
      simp [h1, this]
    · have h2 : 1 < (splitOnNE line_sep.data s.data).length := by omega
      simp only [h1, if_false, decide_eq_true h2, Bool.true_and]
      cases ha : (splitOnNE line_sep.data s.data).all
          (fun l => pyStartsWith (pyStrip l) ['*']) <;>
        cases hb : ((splitOnNE line_sep.data s.data).drop 1).all
            (fun l => pyStartsWith (pyStrip l) ['*']) <;>
          simp [ha, hb]

/-- Mapping a cleaner over the lines and then keeping the nonempty results is
the same as the one-pass `filterMap` of the spec's step (2). -/
theorem map_filter_eq_filterMap (f : List Char → List Char) (ls : List (List Char)) :
    (ls.map f).filter (fun l => !l.isEmpty) =
      ls.filterMap (fun l => if (f l).isEmpty then none else some (f l)) := by
  induction ls with
  | nil => rfl
  | cons a as ih =>
    by_cases h : f a = [] <;>
      simp [List.filter_cons, List.filterMap_cons, List.isEmpty_iff, h, ih]

/-! ### The refinement and safety claims -/

/-- C2: for every input (string or not) and every line separator, the filter's
verdict is exactly the spec's ordered decision list — not text; non-ASCII;
exactly one whitespace token; trivial-or-bot shape; `Merge` prefix; `Revert`
prefix; squash shape — with the first true condition winning (and the
separator-splitting exception propagated identically on both sides). -/
theorem filter_matches_spec_order (m : MsgInput) (line_sep : String) :
    filter m line_sep = filterSpec m line_sep := by
  cases m with
  | nonStr => rfl
  | str s =>
    simp only [filter, filterSpec]
    rw [any_nonascii_eq_not_ascii, filter_squash_eq_spec]
    rfl

/-- C8 counterexample: the filter is not total on every string input — with an
empty line separator the squash check reaches `str.split("")`, which raises
`ValueError` (modelled by `none`), so `_filter("a b", "")` raises rather than
returning a boolean. -/
theorem filter_raises_on_empty_separator : filter (.str "a b") "" = none := by decide

/-- C8 amended: for every string input (including the empty string, pure
punctuation and non-ASCII text) and every non-empty line separator the filter
returns a boolean and never raises, and every non-string input is discarded
(`true`) for any separator. -/
theorem filter_total_for_nonempty_separator (s : String) (line_sep : String)
    (h : line_sep ≠ "") :
    (filter (.str s) line_sep).isSome = true ∧ filter .nonStr line_sep = some true := by
  refine ⟨?_, rfl⟩
  have hsep : line_sep.data.isEmpty = false := by
    cases line_sep with
    | mk l =>
      cases l with
      | nil => exact absurd rfl h
      | cons c cs => rfl
  unfold filter filter_squash pySplit
  simp only [hsep, Bool.false_eq_true, if_false]
  split_ifs <;> simp

/-- Witness for the amended C8 at a concrete non-ASCII input and the newline
separator. -/
theorem filter_total_for_nonempty_separator_witness :
    ("\n" : String) ≠ "" ∧ (filter (.str "héllo wörld") "\n").isSome = true ∧
      filter .nonStr "\n" = some true :=
  ⟨by decide,
   (filter_total_for_nonempty_separator "héllo wörld" "\n" (by decide)).1,
   (filter_total_for_nonempty_separator "héllo wörld" "\n" (by decide)).2⟩

/-- C1: the per-message driver is exactly the spec's four-step sequence:
filter the raw message with `"\n"` (empty on discard); split on `"\n"`, clean
each line, drop emptied lines, rejoin with the caller's separator; filter the
rejoined result with the caller's separator (empty on discard); return it. -/
theorem process_follows_spec_steps (message : String) (replace_patterns : Bool)
    (line_sep : String) :
    process message replace_patterns line_sep =
      processSpec message replace_patterns line_sep := by
  simp only [process, processSpec]
  rw [map_filter_eq_filterMap]

/-- C10: every non-empty output of the driver passes the filter under the
configured separator: the published message is kept, not discarded, by a
further filter pass. -/
theorem process_nonempty_output_passes_filter (message : String)
    (replace_patterns : Bool) (line_sep : String) (s : String)
    (h1 : process message replace_patterns line_sep = some s) (h2 : s ≠ "") :
    filter (.str s) line_sep = some false := by
  simp only [process] at h1
  split at h1
  · exact absurd h1 (by simp)
  · rename_i hb
    rw [← Option.some.inj h1] at h2
    exact absurd rfl h2
  · split at h1
    · exact absurd h1 (by simp)
    · rename_i hb
      rw [← Option.some.inj h1] at h2
      exact absurd rfl h2
    · rename_i hb
      rw [Option.some.inj h1] at hb
      exact hb

/-- Witness for C10 at a concrete message that survives processing. -/
theorem process_nonempty_output_passes_filter_witness :
    process "fix a bug" true "\n" = some "fix a bug" ∧
      ("fix a bug" : String) ≠ "" ∧
      filter (.str "fix a bug") "\n" = some false :=
  ⟨by decide, by decide,
   process_nonempty_output_passes_filter "fix a bug" true "\n" "fix a bug"
     (by decide) (by decide)⟩

/-! ### Engine lemmas for C9 -/

/-- Any remainder produced by the matcher is a suffix of the input. -/
theorem mem_matchList_suffix (r : Regex) :
    ∀ (s t : List Char), t ∈ matchList r s → t <:+ s := by
  induction r with
  | eps =>
    intro s t h
    simp only [matchList, List.mem_singleton] at h
    exact h ▸ List.suffix_refl s
  | chr p =>
    intro s t h
    cases s with
    | nil => simp [matchList] at h
    | cons c rest =>
      by_cases hp : p c
      · simp only [matchList, hp, if_true, List.mem_singleton] at h
        exact h ▸ List.suffix_cons c rest
      · simp [matchList, hp] at h
  | cat a b iha ihb =>
    intro s t h
    simp only [matchList, List.mem_flatMap] at h
    obtain ⟨u, hu, ht⟩ := h
    exact (ihb u t ht).trans (iha s u hu)
  | alt a b iha ihb =>
    intro s t h
    simp only [matchList, List.mem_append] at h
    rcases h with h | h
    · exact iha s t h
    · exact ihb s t h
  | starG p =>
    intro s t h
    simp only [matchList, List.mem_map, List.mem_reverse, List.mem_range] at h
    obtain ⟨k, _, rfl⟩ := h
    exact List.drop_suffix k s
  | starL p =>
    intro s t h
    simp only [matchList, List.mem_map, List.mem_range] at h
    obtain ⟨k, _, rfl⟩ := h
    exact List.drop_suffix k s
  | look r ih =>
    intro s t h
    simp only [matchList] at h
    by_cases he : (matchList r s).isEmpty
    · simp [he] at h
    · simp only [he, Bool.false_eq_true, if_false, List.mem_singleton] at h
      exact h ▸ List.suffix_refl s
  | endA =>
    intro s t h
    simp only [matchList] at h
    split at h
    · simp only [List.mem_singleton] at h
      exact h ▸ List.suffix_refl s
    · simp at h

/-- If every element of `l` maps to `[]`, the flat map is `[]`. -/
theorem flatMap_eq_nil_of_forall {l : List α} {f : α → List β}
    (h : ∀ u ∈ l, f u = []) : l.flatMap f = [] := by
  induction l with
  | nil => rfl
  | cons a as ih =>
    simp only [List.flatMap_cons, h a (List.mem_cons_self a as), List.nil_append]
    exact ih (fun u hu => h u (List.mem_cons_of_mem a hu))

/-- A nonempty match of a concatenation decomposes: some remainder of the left
part admits a nonempty match of the right part. -/
theorem matchList_cat_ne_nil {a b : Regex} {s : List Char}
    (h : matchList (.cat a b) s ≠ []) :
    ∃ u ∈ matchList a s, matchList b u ≠ [] := by
  by_contra hc
  push_neg at hc
  exact h (flatMap_eq_nil_of_forall hc)

/-- A nonempty match of a concatenation gives a nonempty match of its left part. -/
theorem matchList_cat_ne_nil_left {a b : Regex} {s : List Char}
    (h : matchList (.cat a b) s ≠ []) : matchList a s ≠ [] := by
  obtain ⟨u, hu, _⟩ := matchList_cat_ne_nil h
  intro hn
  rw [hn] at hu
  exact List.not_mem_nil u hu

/-- If the bare issue core matches nowhere in `s`, then the full substitution
pattern (leading punctuation run, optional brackets, trailing context) matches
nowhere at the head of `s` either. -/
theorem ctx_matchList_eq_nil (core post : Regex) (s : List Char)
    (h : ∀ t, t <:+ s → matchList core t = []) :
    matchList (seqR [leadR, wrapIssue core, post]) s = [] := by
  by_contra hne
  simp only [seqR] at hne
  obtain ⟨u, hu, h2⟩ := matchList_cat_ne_nil hne
  have h3 : matchList (wrapIssue core) u ≠ [] := matchList_cat_ne_nil_left h2
  simp only [wrapIssue, seqR] at h3
  obtain ⟨w, hw, h4⟩ := matchList_cat_ne_nil h3
  have h5 : matchList core w ≠ [] := matchList_cat_ne_nil_left h4
  have hsuf : w <:+ s :=
    (mem_matchList_suffix _ _ _ hw).trans (mem_matchList_suffix _ _ _ hu)
  exact h5 (h w hsuf)

/-- The anchored delete pass is the identity when its pattern has no match at
position 0. -/
theorem deleteSub1_eq_self {core : Regex} {s : List Char}
    (h : matchList (seqR [leadR, core, postDelR]) s = []) :
    deleteSub1 core s = s := by
  unfold deleteSub1
  rw [h]
  rfl

/-- The scanning delete pass is the identity when its pattern has no match at
any position. -/
theorem deleteSub2Fuel_eq_self {core : Regex} :
    ∀ (fuel : Nat) (s : List Char),
      (∀ t, t <:+ s → matchList (seqR [leadR, core, postLookR]) t = []) →
      deleteSub2Fuel core fuel s = s := by
  intro fuel
  induction fuel with
  | zero =>
    intro s _
    cases s <;> rfl
  | succ n ih =>
    intro s h
    cases s with
    | nil => rfl
    | cons c rest =>
      have hrest : matchList (seqR [leadR, core, postLookR]) rest = [] :=
        h rest (List.suffix_cons c rest)
      have hr := ih rest (fun t ht => h t (ht.trans (List.suffix_cons c rest)))
      by_cases hc : pyIsSpace c <;> simp [deleteSub2Fuel, hc, hrest, hr]

/-- The delete-mode generic removal is the identity when its two passes find
no match. -/
theorem remove_generic_delete_eq_self (core : Regex) (s : List Char)
    (h1 : matchList (seqR [leadR, core, postDelR]) s = [])
    (h2 : ∀ t, t <:+ s → matchList (seqR [leadR, core, postLookR]) t = []) :
    remove_pattern_generic s core [] = s := by
  unfold remove_pattern_generic deleteSub2
  simp only [List.isEmpty_nil, if_true]
  rw [deleteSub1_eq_self h1]
  exact deleteSub2Fuel_eq_self _ s h2

/-- One `_remove_issue_ref` step is the identity on a line in which the bare
issue core occurs nowhere. -/
theorem issue_step_eq_self (c : Regex) (s : List Char)
    (h : ∀ t, t <:+ s → matchList c t = []) :
    remove_pattern_generic s (wrapIssue c) [] = s :=
  remove_generic_delete_eq_self _ _
    (ctx_matchList_eq_nil c postDelR s h)
    (fun t ht => ctx_matchList_eq_nil c postLookR t (fun u hu => h u (hu.trans ht)))

/-- `dropWhile` is idempotent. -/
theorem dropWhile_idem (p : α → Bool) (l : List α) :
    (l.dropWhile p).dropWhile p = l.dropWhile p := by
  induction l with
  | nil => rfl
  | cons a as ih =>
    by_cases h : p a
    · simp [List.dropWhile_cons, h, ih]
    · simp [List.dropWhile_cons, h]

/-- `str.lstrip(chars)` is idempotent. -/
theorem pyLstrip_idem (chars : List Char) (s : List Char) :
    pyLstrip chars (pyLstrip chars s) = pyLstrip chars s :=
  dropWhile_idem _ s

/-- `containsIssueRef x = false` means no issue core matches at any suffix. -/
theorem containsIssueRef_false_no_match {x : String}
    (h : containsIssueRef x = false) (c : Regex)
    (hc : c ∈ [issueCore1, issueCore2, issueCore3, issueCore4]) :
    ∀ t, t <:+ x.data → matchList c t = [] := by
  intro t ht
  cases hm : matchList c t with
  | nil => rfl
  | cons r rs =>
    exfalso
    have htrue : containsIssueRef x = true := by
      unfold containsIssueRef
      rw [List.any_eq_true]
      refine ⟨c, hc, ?_⟩
      rw [List.any_eq_true]
      exact ⟨t, (List.mem_tails t x.data).mpr ht, by simp [hm]⟩
    rw [htrue] at h
    exact absurd h (by simp)

/-! ### Claim C9 -/

/-- C9: in delete mode, `_remove_issue_ref` strips the leading run of `-`, `–`
and `:` characters unconditionally, after each of its four patterns — for
every line in which none of the issue cores `#\d+`, `GH-\d+`, `gh-\d+`,
`[A-Z]\w+-\d+` occurs, the output is exactly the input with that leading run
removed. -/
theorem issue_ref_strips_leading_punct (x : String)
    (h : containsIssueRef x = false) :
    remove_issue_ref x "" = ⟨pyLstrip dashColonChars x.data⟩ := by
  have h1 := containsIssueRef_false_no_match h issueCore1 (by simp)
  have h2 := containsIssueRef_false_no_match h issueCore2 (by simp)
  have h3 := containsIssueRef_false_no_match h issueCore3 (by simp)
  have h4 := containsIssueRef_false_no_match h issueCore4 (by simp)
  have hx1 : pyLstrip dashColonChars x.data <:+ x.data := List.dropWhile_suffix _
  unfold remove_issue_ref
  simp only [List.foldl_cons, List.foldl_nil,
    show ("" : String).data = [] from rfl,
    show (("" : String).isEmpty) = true from rfl,
    eq_self_iff_true, if_true]
  rw [issue_step_eq_self issueCore1 x.data h1]
  rw [issue_step_eq_self issueCore2 _ (fun t ht => h2 t (ht.trans hx1))]
  rw [pyLstrip_idem]
  rw [issue_step_eq_self issueCore3 _ (fun t ht => h3 t (ht.trans hx1))]
  rw [pyLstrip_idem]
  rw [issue_step_eq_self issueCore4 _ (fun t ht => h4 t (ht.trans hx1))]
  rw [pyLstrip_idem]

/-- Witness for C9: a line starting with a dash and containing no issue
reference loses exactly its leading dash run. -/
theorem issue_ref_strips_leading_punct_witness :
    containsIssueRef "- hello world" = false ∧
      remove_issue_ref "- hello world" "" = " hello world" :=
  ⟨by decide,
   (issue_ref_strips_leading_punct "- hello world" (by decide)).trans (by decide)⟩

end MessageProcessor
